/-
Verification of the signal-driven auto-trading core of the FinancialGuiApp repository:
the peak/valley signal detector (`find_peaks_and_valleys` in `src/core/utils.py`,
built on `sklearn.MinMaxScaler` and `scipy.signal.find_peaks` with the `distance` and
`prominence` conditions) and the trade engine (`TradeModel` in `src/core/models.py`,
`TradeController` in `src/core/controllers.py`). Times are modelled as naturals,
prices as rationals; pandas frames become lists of typed rows; a caught exception
becomes an `Option`/`Except` failure or an unchanged-state result, matching the
swallow-and-log handlers in the source.
-/
import Mathlib

set_option autoImplicit false

/-- Inner while-loop of scipy's `_local_maxima_1d`: starting at `iAhead`, advance while
`i_ahead < i_max` and `x[i_ahead] == x[i]` (the plateau value `v`). The loop runs at most
`iMax - iAhead` times, so passing that as `fuel` reproduces the loop exactly. -/
def plateauEnd (x : Array ℚ) (v : ℚ) (iMax : ℕ) : ℕ → ℕ → ℕ
  | 0, iAhead => iAhead
  | fuel + 1, iAhead =>
    if iAhead < iMax ∧ x.getD iAhead 0 = v then plateauEnd x v iMax fuel (iAhead + 1)
    else iAhead

theorem plateauEnd_ge (x : Array ℚ) (v : ℚ) (iMax fuel : ℕ) :
    ∀ iAhead, iAhead ≤ plateauEnd x v iMax fuel iAhead := by
  induction fuel with
  | zero => intro i; rw [plateauEnd]
  | succ fuel ih =>
    intro i
    rw [plateauEnd]
    split
    · exact le_trans (by omega) (ih (i + 1))
    · exact le_refl i

theorem plateauEnd_le (x : Array ℚ) (v : ℚ) (iMax fuel : ℕ) :
    ∀ iAhead, iAhead ≤ iMax → plateauEnd x v iMax fuel iAhead ≤ iMax := by
  induction fuel with
  | zero => intro i h; rw [plateauEnd]; exact h
  | succ fuel ih =>
    intro i h
    rw [plateauEnd]
    split
    · next hc => exact ih (i + 1) (by omega)
    · exact h

theorem plateauEnd_const (x : Array ℚ) (v : ℚ) (iMax fuel : ℕ) :
    ∀ iAhead k, iAhead ≤ k → k < plateauEnd x v iMax fuel iAhead → x.getD k 0 = v := by
  induction fuel with
  | zero => intro i k h1 h2; rw [plateauEnd] at h2; omega
  | succ fuel ih =>
    intro i k h1 h2
    rw [plateauEnd] at h2
    split at h2
    · next hc =>
      rcases Nat.eq_or_lt_of_le h1 with rfl | hlt
      · exact hc.2
      · exact ih (i + 1) k hlt h2
    · omega

/-- Outer loop of scipy's `_local_maxima_1d`: scan `i` from 1 while `i < i_max`
(`i_max = size - 1`, so edges are never maxima). A strictly-rising sample starts a
candidate plateau; if the sample after the plateau is strictly lower, the plateau's
midpoint is emitted and the scan resumes after the plateau. `i` strictly increases
each iteration, so `fuel = iMax` bounds the loop. -/
def localMaximaAux (x : Array ℚ) (iMax : ℕ) : ℕ → ℕ → List ℕ
  | 0, _ => []
  | fuel + 1, i =>
    if i < iMax then
      if x.getD (i - 1) 0 < x.getD i 0 then
        if x.getD (plateauEnd x (x.getD i 0) iMax (iMax - (i + 1)) (i + 1)) 0 < x.getD i 0 then
          (i + (plateauEnd x (x.getD i 0) iMax (iMax - (i + 1)) (i + 1) - 1)) / 2 ::
            localMaximaAux x iMax fuel (plateauEnd x (x.getD i 0) iMax (iMax - (i + 1)) (i + 1) + 1)
        else
          localMaximaAux x iMax fuel (i + 1)
      else
        localMaximaAux x iMax fuel (i + 1)
    else
      []

def localMaxima1d (x : Array ℚ) : List ℕ :=
  localMaximaAux x (x.size - 1) x.size 1

/-- Shape of every index produced by the local-maxima scan: it is the midpoint of a
plateau that rises at its left edge and falls after its right edge. -/
theorem localMaximaAux_spec (x : Array ℚ) (iMax : ℕ) (fuel : ℕ) :
    ∀ i j, 1 ≤ i → j ∈ localMaximaAux x iMax fuel i →
    ∃ l r, 1 ≤ l ∧ i ≤ l ∧ l ≤ r ∧ r + 1 ≤ iMax ∧ j = (l + r) / 2 ∧
      x.getD (l - 1) 0 < x.getD l 0 ∧ x.getD (r + 1) 0 < x.getD l 0 ∧
      (∀ k, l ≤ k → k ≤ r → x.getD k 0 = x.getD l 0) := by
  induction fuel with
  | zero => intro i j hi hj; rw [localMaximaAux] at hj; simp at hj
  | succ fuel ih =>
    intro i j hi hj
    rw [localMaximaAux] at hj
    by_cases hlt : i < iMax
    · rw [if_pos hlt] at hj
      by_cases hrise : x.getD (i - 1) 0 < x.getD i 0
      · rw [if_pos hrise] at hj
        have hge : i + 1 ≤ plateauEnd x (x.getD i 0) iMax (iMax - (i + 1)) (i + 1) :=
          plateauEnd_ge x (x.getD i 0) iMax (iMax - (i + 1)) (i + 1)
        have hle : plateauEnd x (x.getD i 0) iMax (iMax - (i + 1)) (i + 1) ≤ iMax :=
          plateauEnd_le x (x.getD i 0) iMax (iMax - (i + 1)) (i + 1) hlt
        by_cases hfall :
            x.getD (plateauEnd x (x.getD i 0) iMax (iMax - (i + 1)) (i + 1)) 0 < x.getD i 0
        · rw [if_pos hfall] at hj
          rcases List.mem_cons.mp hj with rfl | hj
          · refine ⟨i, plateauEnd x (x.getD i 0) iMax (iMax - (i + 1)) (i + 1) - 1, hi,
              le_refl i, by omega, by omega, rfl, hrise, ?_, ?_⟩
            · have heq : plateauEnd x (x.getD i 0) iMax (iMax - (i + 1)) (i + 1) - 1 + 1 =
                  plateauEnd x (x.getD i 0) iMax (iMax - (i + 1)) (i + 1) := by omega
              rw [heq]; exact hfall
            · intro k hk1 hk2
              rcases Nat.eq_or_lt_of_le hk1 with rfl | hlt2
              · rfl
              · exact plateauEnd_const x (x.getD i 0) iMax (iMax - (i + 1)) (i + 1) k
                  (by omega) (by omega)
          · obtain ⟨l, r, h1, h2, h3⟩ := ih _ j (by omega) hj
            exact ⟨l, r, h1, by omega, h3⟩
        · rw [if_neg hfall] at hj
          obtain ⟨l, r, h1, h2, h3⟩ := ih _ j (by omega) hj
          exact ⟨l, r, h1, by omega, h3⟩
      · rw [if_neg hrise] at hj
        obtain ⟨l, r, h1, h2, h3⟩ := ih _ j (by omega) hj
        exact ⟨l, r, h1, by omega, h3⟩
    · rw [if_neg hlt] at hj
      simp at hj

def negArr (x : Array ℚ) : Array ℚ := x.map (fun v => -v)

theorem negArr_getD (x : Array ℚ) (k : ℕ) : (negArr x).getD k 0 = -(x.getD k 0) := by
  simp only [negArr, Array.getD, Array.size_map]
  split
  · simp
  · simp

/-- An index cannot be a local-maximum midpoint of both a series and its negation. -/
theorem localMaxima1d_disjoint (x : Array ℚ) (j : ℕ)
    (hp : j ∈ localMaxima1d x) (hv : j ∈ localMaxima1d (negArr x)) : False := by
  obtain ⟨l, r, hl1, -, hlr, hr1, hjeq, hrise, hfall, hconst⟩ :=
    localMaximaAux_spec x (x.size - 1) x.size 1 j (le_refl 1) hp
  obtain ⟨l', r', hl1', -, hlr', hr1', hjeq', hrise', hfall', hconst'⟩ :=
    localMaximaAux_spec (negArr x) ((negArr x).size - 1) (negArr x).size 1 j (le_refl 1) hv
  rw [negArr_getD, negArr_getD] at hrise' hfall'
  have hconst'' : ∀ k, l' ≤ k → k ≤ r' → x.getD k 0 = x.getD l' 0 := by
    intro k hk1 hk2
    have := hconst' k hk1 hk2
    rw [negArr_getD, negArr_getD] at this
    linarith
  have hjl : l ≤ j := by omega
  have hjr : j ≤ r := by omega
  have hjl' : l' ≤ j := by omega
  have hjr' : j ≤ r' := by omega
  rcases lt_trichotomy l l' with hc | hc | hc
  · have h1 : x.getD (l' - 1) 0 = x.getD l 0 := hconst (l' - 1) (by omega) (by omega)
    have h2 : x.getD l' 0 = x.getD l 0 := hconst l' (by omega) (by omega)
    rw [h1, h2] at hrise'
    linarith
  · subst hc
    linarith
  · have h1 : x.getD (l - 1) 0 = x.getD l' 0 := hconst'' (l - 1) (by omega) (by omega)
    have h2 : x.getD l 0 = x.getD l' 0 := hconst'' l (by omega) (by omega)
    rw [h1, h2] at hrise
    linarith

/-- Stable insertion of a position into an ascending-by-key list (ties keep earlier
positions first), used to model `np.argsort` of the peaks' heights. -/
def insertAsc (key : ℕ → ℚ) (a : ℕ) : List ℕ → List ℕ
  | [] => [a]
  | b :: bs => if key a < key b then a :: b :: bs else b :: insertAsc key a bs

def argsort (key : ℕ → ℚ) (n : ℕ) : List ℕ :=
  (List.range n).foldr (insertAsc key) []

/-- Leftward kill loop of scipy's `_select_by_peak_distance`: clear `keep[k]` for
`k = j-1, j-2, ...` while `peaks[j] - peaks[k] < distance`. -/
def killLeftAux (peaks : Array ℕ) (dist : ℕ) (pj : ℕ) : ℕ → Array Bool → Array Bool
  | k, keep =>
    if (pj : ℤ) - (peaks.getD k 0 : ℤ) < (dist : ℤ) then
      match k with
      | 0 => keep.set! 0 false
      | k' + 1 => killLeftAux peaks dist pj k' (keep.set! (k' + 1) false)
    else keep

/-- Rightward kill loop: clear `keep[k]` for `k = j+1, ...` while `k < n` and
`peaks[k] - peaks[j] < distance`; runs at most `n - k` times. -/
def killRightAux (peaks : Array ℕ) (dist : ℕ) (pj : ℕ) (n : ℕ) : ℕ → ℕ → Array Bool → Array Bool
  | 0, _, keep => keep
  | fuel + 1, k, keep =>
    if k < n then
      if (peaks.getD k 0 : ℤ) - (pj : ℤ) < (dist : ℤ) then
        killRightAux peaks dist pj n fuel (k + 1) (keep.set! k false)
      else keep
    else keep

def applyKeep (peaks : List ℕ) (keep : List Bool) : List ℕ :=
  (peaks.zip keep).filterMap (fun pk => if pk.2 then some pk.1 else none)

/-- scipy `_select_by_peak_distance`: visit peaks from highest to lowest priority
(`np.argsort` of heights, reversed); a surviving peak clears all neighbours closer
than `distance` on both sides. -/
def selectByPeakDistance (peaks : List ℕ) (key : ℕ → ℚ) (dist : ℕ) : List ℕ :=
  let pArr := peaks.toArray
  let n := pArr.size
  let order := argsort key n
  let keep := order.reverse.foldl (fun keep j =>
    if keep.getD j false then
      let pj := pArr.getD j 0
      let keep1 := match j with
        | 0 => keep
        | j' + 1 => killLeftAux pArr dist pj j' keep
      killRightAux pArr dist pj n (n - (j + 1)) (j + 1) keep1
    else keep) (Array.mkArray n true)
  applyKeep peaks keep.toList

/-- Pairwise minimum and maximum on rationals, written with an explicit comparison so
they evaluate by kernel reduction (models `np.min`/`np.max` folds over an array). -/
def qmin (a b : ℚ) : ℚ := if a ≤ b then a else b

def qmax (a b : ℚ) : ℚ := if a ≤ b then b else a

/-- Left base scan of scipy's `_peak_prominences`: walk left from the peak while
samples stay `<= x[peak]`, folding in the minimum. -/
def leftMinAux (x : Array ℚ) (xp : ℚ) : ℕ → ℚ → ℚ
  | i, cur =>
    if x.getD i 0 ≤ xp then
      match i with
      | 0 => qmin cur (x.getD 0 0)
      | i' + 1 => leftMinAux x xp i' (qmin cur (x.getD (i' + 1) 0))
    else cur

/-- Right base scan of `_peak_prominences`: walk right while inside the array and
samples stay `<= x[peak]`; runs at most `size - i` times. -/
def rightMinAux (x : Array ℚ) (xp : ℚ) : ℕ → ℕ → ℚ → ℚ
  | 0, _, cur => cur
  | fuel + 1, i, cur =>
    if i < x.size then
      if x.getD i 0 ≤ xp then rightMinAux x xp fuel (i + 1) (qmin cur (x.getD i 0))
      else cur
    else cur

def peakProminence (x : Array ℚ) (peak : ℕ) : ℚ :=
  let xp := x.getD peak 0
  xp - qmax (leftMinAux x xp peak xp) (rightMinAux x xp (x.size - peak) peak xp)

def selectByProminence (x : Array ℚ) (pmin : ℚ) (peaks : List ℕ) : List ℕ :=
  peaks.filter (fun p => decide (pmin ≤ peakProminence x p))

/-- scipy `find_peaks` with the `distance` and `prominence` conditions, applied in
source order: local maxima, then the distance filter, then the prominence filter. -/
def findPeaks (x : Array ℚ) (dist : ℕ) (pmin : ℚ) : List ℕ :=
  selectByProminence x pmin (selectByPeakDistance (localMaxima1d x) (fun i => x.getD i 0) dist)

/-- sklearn `MinMaxScaler(feature_range=(0,1)).fit_transform` on one column: map to
`(v - min) / (max - min)`, with a zero range replaced by 1 (`_handle_zeros_in_scale`),
so a constant column maps to all zeros. -/
def minMaxScale (xs : List ℚ) : List ℚ :=
  match xs with
  | [] => []
  | x :: rest =>
    let mn := rest.foldl qmin x
    let mx := rest.foldl qmax x
    let range := if mx - mn = 0 then 1 else mx - mn
    xs.map (fun v => (v - mn) / range)

def fpPeaks (closes : List ℚ) (dist : ℕ) (pmin : ℚ) : List ℕ :=
  findPeaks (minMaxScale closes).toArray dist pmin

def fpValleys (closes : List ℚ) (dist : ℕ) (pmin : ℚ) : List ℕ :=
  findPeaks (negArr (minMaxScale closes).toArray) dist pmin

/-- Consolidation step of `find_peaks_and_valleys`: start from all-1 (neutral), assign
2 at peak indices, then assign 0 at valley indices — so the valley assignment, executed
second, wins at any index present in both lists. -/
def buildSignal (n : ℕ) (peaks valleys : List ℕ) : List ℚ :=
  (List.range n).map (fun i => if i ∈ valleys then 0 else if i ∈ peaks then 2 else 1)

def find_peaks_and_valleys (closes : List ℚ) (dist : ℕ) (pmin : ℚ) : List ℚ :=
  buildSignal closes.length (fpPeaks closes dist pmin) (fpValleys closes dist pmin)

theorem applyKeep_subset (peaks : List ℕ) (keep : List Bool) (j : ℕ)
    (h : j ∈ applyKeep peaks keep) : j ∈ peaks := by
  simp only [applyKeep, List.mem_filterMap] at h
  obtain ⟨⟨a, b⟩, hmem, hif⟩ := h
  by_cases hb : b
  · simp only [hb, if_pos, Option.some.injEq] at hif
    exact hif ▸ (List.of_mem_zip hmem).1
  · simp [hb] at hif

theorem findPeaks_subset (x : Array ℚ) (dist : ℕ) (pmin : ℚ) (j : ℕ)
    (h : j ∈ findPeaks x dist pmin) : j ∈ localMaxima1d x :=
  applyKeep_subset _ _ _ (List.mem_of_mem_filter h)

theorem fp_disjoint (closes : List ℚ) (dist : ℕ) (pmin : ℚ) (j : ℕ)
    (hp : j ∈ fpPeaks closes dist pmin) (hv : j ∈ fpValleys closes dist pmin) : False :=
  localMaxima1d_disjoint _ j (findPeaks_subset _ _ _ _ hp) (findPeaks_subset _ _ _ _ hv)


/-- A row of the price DataFrame handed to `auto_trade` (caller resets the index, so
positional index and label coincide). `signal` is the 'Signal' cell (`none` models NaN);
`rest` stands for all remaining cells of the row (OHLCV, indicators, ...). -/
structure Bar where
  time : ℕ
  close : ℚ
  signal : Option ℚ
  rest : List ℚ
  deriving DecidableEq, Repr

/-- A row of the `trades` ledger / the `current_trade` one-row frame. -/
structure TradeRow where
  ttype : String
  entry_date : ℕ
  entry_price : ℚ
  status : String
  exit_date : Option ℕ := none
  exit_price : Option ℚ := none
  profit : Option ℚ := none
  deriving DecidableEq, Repr

/-- `TradeModel.__init__`: `trades` is the ledger, `current_trade` the at-most-one-row
frame holding the live position, `current_date`/`data` start as `None`. -/
structure TradeModel where
  trades : List TradeRow := []
  current_trade : Option TradeRow := none
  current_date : Option ℕ := none
  data : Option (List Bar) := none
  deriving DecidableEq, Repr

/-- `TradeModel.get_close_price`: the 'Close' of the first row whose 'Time' equals the
date; `none` when there is no match (IndexError caught) or no data is loaded. -/
def get_close_price (m : TradeModel) (date : ℕ) : Option ℚ :=
  match m.data with
  | none => none
  | some df => (df.find? (fun b => b.time == date)).map (·.close)

def set_data (m : TradeModel) (df : List Bar) : TradeModel :=
  { m with data := some df }

def set_current_date (m : TradeModel) (d : ℕ) : TradeModel :=
  { m with current_date := some d }

/-- `TradeController.close_trade`: if the live row exists with status 'open' and a close
price is available at `current_date`, fill the exit fields (profit is `exit - entry` for
'buy', `entry - exit` otherwise), append the row to `trades` and clear `current_trade`;
any failure (no open trade, no price) leaves the model unchanged. -/
def close_trade (m : TradeModel) : TradeModel :=
  match m.current_trade with
  | none => m
  | some t =>
    if t.status = "open" then
      match m.current_date with
      | none => m
      | some d =>
        match get_close_price m d with
        | none => m
        | some exit_price =>
          let profit := if t.ttype = "buy" then exit_price - t.entry_price
                        else t.entry_price - exit_price
          let t' := { t with
            exit_date := some d
            exit_price := some exit_price
            profit := some profit
            status := "closed" }
          { m with trades := m.trades ++ [t'], current_trade := none }
    else m

/-- `TradeController.buy_trade`: close any live trade first, then open a 'buy' row at
the close price of `current_date`; if no price is available the open is abandoned
(the exception is caught) but a preceding successful close persists. -/
def buy_trade (m : TradeModel) : TradeModel :=
  let m1 := if m.current_trade.isSome then close_trade m else m
  match m1.current_date with
  | none => m1
  | some d =>
    match get_close_price m1 d with
    | none => m1
    | some entry_price =>
      { m1 with current_trade := some {
          ttype := "buy"
          entry_date := d
          entry_price := entry_price
          status := "open" } }

/-- `TradeController.sell_trade`: same as `buy_trade` with type 'sell'. -/
def sell_trade (m : TradeModel) : TradeModel :=
  let m1 := if m.current_trade.isSome then close_trade m else m
  match m1.current_date with
  | none => m1
  | some d =>
    match get_close_price m1 d with
    | none => m1
    | some entry_price =>
      { m1 with current_trade := some {
          ttype := "sell"
          entry_date := d
          entry_price := entry_price
          status := "open" } }

/-- Signal written into the last row: `find_peaks_and_valleys(df, ..., rolling=True)`,
i.e. the last entry of the full signal array. -/
def currentSignalOf (df : List Bar) (pd : ℕ) (pp : ℚ) : ℚ :=
  (find_peaks_and_valleys (df.map (·.close)) pd pp).getLastD 1

/-- The caller's DataFrame after `df.loc[len(df)-1, 'Signal'] = current_signal`. -/
def dfWithSignal (df : List Bar) (pd : ℕ) (pp : ℚ) : List Bar :=
  match df.getLast? with
  | none => df
  | some lastBar => df.dropLast ++ [{ lastBar with signal := some (currentSignalOf df pd pp) }]

/-- `latest_trade_date`: entry date of the row in `current_trade` if that frame is
non-empty, else `None` — the live position's entry time, not the ledger's. -/
def latestTradeDate (m : TradeModel) : Option ℕ :=
  m.current_trade.map (·.entry_date)

/-- Row selection `df[(df.Time > latest) & (df.Time <= current)]` (or only the upper
bound when `latest_trade_date` is `None`), keeping original integer labels. -/
def signalsSinceLastTrade (latest : Option ℕ) (dfIdx : List (ℕ × Bar)) (current_date : ℕ) :
    List (ℕ × Bar) :=
  match latest with
  | some l => dfIdx.filter (fun ib => decide (l < ib.2.time ∧ ib.2.time ≤ current_date))
  | none => dfIdx.filter (fun ib => decide (ib.2.time ≤ current_date))

/-- Rows whose 'Signal' is in `[0.0, 2.0]`. -/
def validSignalsOf (cands : List (ℕ × Bar)) : List (ℕ × Bar) :=
  cands.filter (fun ib => ib.2.signal == some 0 || ib.2.signal == some 2)

/-- The Buy/Sell candidate rows `auto_trade` selects from: bars of the signal-updated
window after the live trade's entry time and up to the current bar, with signal 0 or 2. -/
def autoCandidates (m : TradeModel) (df : List Bar) (pd : ℕ) (pp : ℚ) (cur : ℕ) :
    List (ℕ × Bar) :=
  validSignalsOf (signalsSinceLastTrade (latestTradeDate m) (dfWithSignal df pd pp).enum cur)

/-- `TradeController.auto_trade`. Returns the updated model together with the caller's
DataFrame as the call leaves it. `peaks_distance = 0` would make `scipy.find_peaks`
raise (caught by the blanket handler) after `set_data` but before the signal write,
hence the early return in that case. -/
def auto_trade (m : TradeModel) (df : List Bar) (furthest_index : ℕ := 100)
    (peaks_distance : ℕ := 5) (peaks_prominence : ℚ := 1/10) : TradeModel × List Bar :=
  let m0 := set_data m df
  match df.getLast? with
  | none => (m0, df)
  | some lastBar =>
    if peaks_distance = 0 then (m0, df)
    else
      let df' := dfWithSignal df peaks_distance peaks_prominence
      let current_date := lastBar.time
      let valid := autoCandidates m0 df peaks_distance peaks_prominence current_date
      match valid.getLast? with
      | none => (m0, df')
      | some ib =>
        let new_signal := ib.2.signal.getD 1
        let index_difference : ℤ := ((df'.length : ℤ) - 1) - (ib.1 : ℤ)
        let recent_signal_condition := index_difference ≤ (furthest_index : ℤ)
        if new_signal = 1 then (m0, df')
        else
          match m0.current_trade with
          | some ct =>
            if (new_signal = 0 ∧ ct.ttype = "buy") ∨ (new_signal = 2 ∧ ct.ttype = "sell") then
              (m0, df')
            else
              let m1 := close_trade m0
              if new_signal = 0 ∧ recent_signal_condition then (buy_trade m1, df')
              else if new_signal = 2 ∧ recent_signal_condition then (sell_trade m1, df')
              else (m1, df')
          | none =>
            if new_signal = 0 ∧ recent_signal_condition then (buy_trade m0, df')
            else if new_signal = 2 ∧ recent_signal_condition then (sell_trade m0, df')
            else (m0, df')


/-- Input window of the detector seen as a DataFrame: column-presence flags for the
required `Time` and `Close` columns plus the close values. -/
structure DfWindow where
  hasTime : Bool
  hasClose : Bool
  closes : List ℚ
  deriving DecidableEq

/-- `find_peaks_and_valleys` including its failure behaviour, in source order: a
missing `Close` column raises `KeyError`, then a missing `Time` column, then
`MinMaxScaler.fit_transform` rejects an empty window, then `scipy.find_peaks` rejects
`distance < 1`. With `rolling=True` the last signal is returned (as a one-element
list); `signal[-1]` on an empty array would raise `IndexError`. -/
def find_peaks_and_valleysExc (w : DfWindow) (dist : ℕ) (pmin : ℚ) (rolling : Bool) :
    Except String (List ℚ) :=
  if !w.hasClose then .error "KeyError: Close"
  else if !w.hasTime then .error "KeyError: Time"
  else if w.closes.isEmpty then .error "ValueError: 0 samples"
  else if dist = 0 then .error "ValueError: distance must be greater or equal to 1"
  else
    let signal := find_peaks_and_valleys w.closes dist pmin
    if rolling then
      match signal.getLast? with
      | some v => .ok [v]
      | none => .error "IndexError"
    else .ok signal

/-- Modelled from the claim of C1: the boundary as the spec words it, namely the entry
time of the most recent trade ever opened — the live one if a position is open, else
the last ledger entry — or none when no trade was ever opened. Stated for comparison
with `latestTradeDate`, which is what the code computes. -/
def lastTradeTimeSpec (m : TradeModel) : Option ℕ :=
  match m.current_trade with
  | some t => some t.entry_date
  | none => m.trades.getLast?.map (·.entry_date)

/-- The closed copy of a live row as `close_trade` writes it at exit date `d` and exit
price `p`. -/
def closedRow (t : TradeRow) (d : ℕ) (p : ℚ) : TradeRow :=
  { t with
    exit_date := some d
    exit_price := some p
    profit := some (if t.ttype = "buy" then p - t.entry_price else t.entry_price - p)
    status := "closed" }

/-- The fresh live row written by `buy_trade` / `sell_trade`. -/
def openRow (side : String) (d : ℕ) (p : ℚ) : TradeRow :=
  { ttype := side, entry_date := d, entry_price := p, status := "open" }

/-- Every ledger row is closed; positions are live only in `current_trade`. -/
def ledgerAllClosed (m : TradeModel) : Prop :=
  ∀ t ∈ m.trades, t.status = "closed"

/-- Number of rows with status `open` across the ledger and the live slot. -/
def openPositions (m : TradeModel) : ℕ :=
  m.trades.countP (fun t => t.status == "open") +
    (match m.current_trade with
     | some t => if t.status = "open" then 1 else 0
     | none => 0)

theorem close_trade_data (m : TradeModel) : (close_trade m).data = m.data := by
  unfold close_trade
  split
  · rfl
  · split
    · split
      · rfl
      · split
        · rfl
        · rfl
    · rfl

theorem close_trade_date (m : TradeModel) : (close_trade m).current_date = m.current_date := by
  unfold close_trade
  split
  · rfl
  · split
    · split
      · rfl
      · split
        · rfl
        · rfl
    · rfl

theorem close_trade_none (m : TradeModel) (h : m.current_trade = none) : close_trade m = m := by
  unfold close_trade
  rw [h]

theorem close_trade_eq_or_none (m : TradeModel) :
    close_trade m = m ∨ (close_trade m).current_trade = none := by
  unfold close_trade
  split
  · exact Or.inl rfl
  · split
    · split
      · exact Or.inl rfl
      · split
        · exact Or.inl rfl
        · exact Or.inr rfl
    · exact Or.inl rfl

theorem ledgerAllClosed_close (m : TradeModel) (h : ledgerAllClosed m) :
    ledgerAllClosed (close_trade m) := by
  unfold close_trade
  split
  · exact h
  · split
    · split
      · exact h
      · split
        · exact h
        · intro t ht
          simp only [List.mem_append, List.mem_singleton] at ht
          rcases ht with ht | rfl
          · exact h t ht
          · rfl
    · exact h

theorem trades_len_close (m : TradeModel) :
    m.trades.length ≤ (close_trade m).trades.length := by
  unfold close_trade
  split
  · exact le_refl _
  · split
    · split
      · exact le_refl _
      · split
        · exact le_refl _
        · simp
    · exact le_refl _

theorem close_trade_trades_eq_or_snoc (m : TradeModel) :
    (close_trade m).trades = m.trades ∨ ∃ t, (close_trade m).trades = m.trades ++ [t] := by
  unfold close_trade
  split
  · exact Or.inl rfl
  · split
    · split
      · exact Or.inl rfl
      · split
        · exact Or.inl rfl
        · exact Or.inr ⟨_, rfl⟩
    · exact Or.inl rfl

theorem get_close_price_data (m m' : TradeModel) (h : m'.data = m.data) (d : ℕ) :
    get_close_price m' d = get_close_price m d := by
  unfold get_close_price
  rw [h]

theorem buy_trade_data (m : TradeModel) : (buy_trade m).data = m.data := by
  have hm1 : (if m.current_trade.isSome then close_trade m else m).data = m.data := by
    split
    · exact close_trade_data m
    · rfl
  simp only [buy_trade]
  split
  · exact hm1
  · split
    · exact hm1
    · exact hm1

theorem sell_trade_data (m : TradeModel) : (sell_trade m).data = m.data := by
  have hm1 : (if m.current_trade.isSome then close_trade m else m).data = m.data := by
    split
    · exact close_trade_data m
    · rfl
  simp only [sell_trade]
  split
  · exact hm1
  · split
    · exact hm1
    · exact hm1

theorem ledgerAllClosed_buy (m : TradeModel) (h : ledgerAllClosed m) :
    ledgerAllClosed (buy_trade m) := by
  have hm1 : ledgerAllClosed (if m.current_trade.isSome then close_trade m else m) := by
    split
    · exact ledgerAllClosed_close m h
    · exact h
  simp only [buy_trade]
  split
  · exact hm1
  · split
    · exact hm1
    · exact hm1

theorem ledgerAllClosed_sell (m : TradeModel) (h : ledgerAllClosed m) :
    ledgerAllClosed (sell_trade m) := by
  have hm1 : ledgerAllClosed (if m.current_trade.isSome then close_trade m else m) := by
    split
    · exact ledgerAllClosed_close m h
    · exact h
  simp only [sell_trade]
  split
  · exact hm1
  · split
    · exact hm1
    · exact hm1

theorem trades_len_buy (m : TradeModel) : m.trades.length ≤ (buy_trade m).trades.length := by
  have hm1 : m.trades.length ≤
      (if m.current_trade.isSome then close_trade m else m).trades.length := by
    split
    · exact trades_len_close m
    · exact le_refl _
  simp only [buy_trade]
  split
  · exact hm1
  · split
    · exact hm1
    · exact hm1

theorem trades_len_sell (m : TradeModel) : m.trades.length ≤ (sell_trade m).trades.length := by
  have hm1 : m.trades.length ≤
      (if m.current_trade.isSome then close_trade m else m).trades.length := by
    split
    · exact trades_len_close m
    · exact le_refl _
  simp only [sell_trade]
  split
  · exact hm1
  · split
    · exact hm1
    · exact hm1

theorem close_trade_success (m : TradeModel) (ct : TradeRow) (d : ℕ) (p : ℚ)
    (hct : m.current_trade = some ct) (hopen : ct.status = "open")
    (hd : m.current_date = some d) (hp : get_close_price m d = some p) :
    close_trade m =
      { m with trades := m.trades ++ [closedRow ct d p], current_trade := none } := by
  unfold close_trade
  rw [hct]
  simp only [if_pos hopen]
  rw [hd]
  simp only []
  rw [hp]
  simp only [closedRow]

theorem buy_trade_open (m : TradeModel) (d : ℕ) (p : ℚ) (hnone : m.current_trade = none)
    (hd : m.current_date = some d) (hp : get_close_price m d = some p) :
    buy_trade m = { m with current_trade := some (openRow "buy" d p) } := by
  simp only [buy_trade, hnone, Option.isSome_none, Bool.false_eq_true, if_false]
  rw [hd]
  simp only []
  rw [hp]
  simp only [openRow]

theorem sell_trade_open (m : TradeModel) (d : ℕ) (p : ℚ) (hnone : m.current_trade = none)
    (hd : m.current_date = some d) (hp : get_close_price m d = some p) :
    sell_trade m = { m with current_trade := some (openRow "sell" d p) } := by
  simp only [sell_trade, hnone, Option.isSome_none, Bool.false_eq_true, if_false]
  rw [hd]
  simp only []
  rw [hp]
  simp only [openRow]

theorem auto_trade_model_cases (m : TradeModel) (df : List Bar) (f pd : ℕ) (pp : ℚ) :
    (auto_trade m df f pd pp).1 = set_data m df ∨
    (auto_trade m df f pd pp).1 = close_trade (set_data m df) ∨
    (auto_trade m df f pd pp).1 = buy_trade (set_data m df) ∨
    (auto_trade m df f pd pp).1 = sell_trade (set_data m df) ∨
    (auto_trade m df f pd pp).1 = buy_trade (close_trade (set_data m df)) ∨
    (auto_trade m df f pd pp).1 = sell_trade (close_trade (set_data m df)) := by
  simp only [auto_trade]
  split
  · exact Or.inl rfl
  · split
    · exact Or.inl rfl
    · split
      · exact Or.inl rfl
      · split
        · exact Or.inl rfl
        · split
          · split
            · exact Or.inl rfl
            · split
              · exact Or.inr (Or.inr (Or.inr (Or.inr (Or.inl rfl))))
              · split
                · exact Or.inr (Or.inr (Or.inr (Or.inr (Or.inr rfl))))
                · exact Or.inr (Or.inl rfl)
          · split
            · exact Or.inr (Or.inr (Or.inl rfl))
            · split
              · exact Or.inr (Or.inr (Or.inr (Or.inl rfl)))
              · exact Or.inl rfl

theorem mem_of_getLast?_eq {α : Type} {l : List α} {a : α} (h : l.getLast? = some a) :
    a ∈ l := by
  obtain ⟨hne, heq⟩ := List.mem_getLast?_eq_getLast (show a ∈ l.getLast? from by
    rw [Option.mem_def, h])
  rw [heq]
  exact List.getLast_mem hne

theorem validSignalsOf_mem (cands : List (ℕ × Bar)) (ib : ℕ × Bar)
    (h : ib ∈ validSignalsOf cands) : ib.2.signal = some 0 ∨ ib.2.signal = some 2 := by
  simp only [validSignalsOf, List.mem_filter, Bool.or_eq_true, beq_iff_eq] at h
  exact h.2

/-- Freshly initialised model, as `TradeController.__init__` builds it. -/
def exInitModel : TradeModel := {}

/-- Six-bar window with times 1..6 and the flat-spike-flat closes; bar index 3 carries
a Sell signal (as a whole-window detector pass would have written), the others are
neutral. -/
def exBars : List Bar :=
  [⟨1, 1, some 1, []⟩, ⟨2, 1, some 1, []⟩, ⟨3, 1, some 1, []⟩,
   ⟨4, 2, some 2, []⟩, ⟨5, 1, some 1, []⟩, ⟨6, 1, some 1, []⟩]

/-- Engine state with an open Long entered at time 0 for 2, clock at time 6. -/
def exOpenLong : TradeModel :=
  { trades := []
    current_trade := some {
      ttype := "buy"
      entry_date := 0
      entry_price := 2
      status := "open" }
    current_date := some 6
    data := none }

/-- Engine state with an open Long entered at time 0 for 1, clock at time 6. -/
def exFlipLong : TradeModel :=
  { trades := []
    current_trade := some {
      ttype := "buy"
      entry_date := 0
      entry_price := 1
      status := "open" }
    current_date := some 6
    data := none }

/-- Engine state after a trade entered at time 4 was closed: the ledger holds the
closed row and no position is live. -/
def exLedgerClosed : TradeModel :=
  { trades := [{
      ttype := "buy"
      entry_date := 4
      entry_price := 1
      status := "closed"
      exit_date := some 5
      exit_price := some 1
      profit := some 0 }]
    current_trade := none
    current_date := some 6
    data := none }

/-- Indexed two-bar window (times 1 and 6) used to compare candidate selections. -/
def exDfIdx : List (ℕ × Bar) :=
  [(0, ⟨1, 1, some 0, []⟩), (1, ⟨6, 1, some 1, []⟩)]

/-- Engine state with an open Long at 1.25 and data holding one bar closing at 1.2550,
matching the worked example of the spec. -/
def exPnlLong : TradeModel :=
  { trades := []
    current_trade := some {
      ttype := "buy"
      entry_date := 0
      entry_price := 5/4
      status := "open" }
    current_date := some 1
    data := some [⟨1, 251/200, none, []⟩] }

/-- C3 counterexample: on the explicit empty window (both required columns present),
`find_peaks_and_valleys` does not return an empty or neutral result — the scaler
rejects the empty input and the call raises, modelled as an `error` value. -/
theorem C3_counterexample :
    find_peaks_and_valleysExc ⟨true, true, []⟩ 5 (1/10) false =
      Except.error "ValueError: 0 samples" := rfl

/-- C3 (amended): for every window that is empty or lacks the required Close column,
`find_peaks_and_valleys` raises (`KeyError` on the missing column, `ValueError` from
the scaler on an empty window) instead of returning a neutral result; the engine still
degrades gracefully because `auto_trade` returns before the detector on an empty
window, leaving the ledger and live position untouched. -/
theorem C3_amended (w : DfWindow) (dist : ℕ) (pmin : ℚ) (rolling : Bool)
    (h : w.closes = [] ∨ w.hasClose = false) :
    (∃ e, find_peaks_and_valleysExc w dist pmin rolling = Except.error e) ∧
    (∀ (m : TradeModel) (f pd : ℕ) (pp : ℚ),
      (auto_trade m [] f pd pp).1 = set_data m [] ∧ (auto_trade m [] f pd pp).2 = []) := by
  constructor
  · unfold find_peaks_and_valleysExc
    rcases h with h | h
    · by_cases hc : w.hasClose
      · by_cases ht : w.hasTime
        · refine ⟨"ValueError: 0 samples", ?_⟩
          simp [hc, ht, h]
        · refine ⟨"KeyError: Time", ?_⟩
          simp [hc, ht]
      · refine ⟨"KeyError: Close", ?_⟩
        simp [hc]
    · refine ⟨"KeyError: Close", ?_⟩
      simp [h]
  · intro m f pd pp
    constructor
    · simp [auto_trade]
    · simp [auto_trade]

/-- C3 witness: the amended statement applied to the concrete empty window with both
columns present, and to a window missing the Close column. -/
theorem C3_witness :
    (∃ e, find_peaks_and_valleysExc ⟨true, true, []⟩ 5 (1/10) true = Except.error e) ∧
    (∃ e, find_peaks_and_valleysExc ⟨true, false, [1, 2]⟩ 5 (1/10) false = Except.error e) ∧
    (auto_trade exInitModel [] 100 5 (1/10)).1 = set_data exInitModel [] :=
  ⟨(C3_amended ⟨true, true, []⟩ 5 (1/10) true (Or.inl rfl)).1,
   (C3_amended ⟨true, false, [1, 2]⟩ 5 (1/10) false (Or.inr rfl)).1,
   ((C3_amended ⟨true, true, []⟩ 5 (1/10) true (Or.inl rfl)).2 exInitModel 100 5 (1/10)).1⟩

/-- C8 counterexample: the consolidation step assigns valleys after peaks, so an index
hypothetically matched by both detections ends up classified 0 (Buy), not 2 (Sell). -/
theorem C8_counterexample :
    0 ∈ ([0] : List ℕ) ∧ (buildSignal 1 [0] [0]).get? 0 = some 0 ∧
      (buildSignal 1 [0] [0]).get? 0 ≠ some 2 := by decide

/-- C8 (amended): the peak and valley index sets computed by the detector are disjoint
by construction (an index cannot be a local maximum of both the scaled series and its
negation), and if an index were matched by both detections its final classification
would be Buy (0), because the valley assignment is executed after the peak assignment. -/
theorem C8_theorem :
    (∀ (closes : List ℚ) (dist : ℕ) (pmin : ℚ),
      (fpPeaks closes dist pmin) ∩ (fpValleys closes dist pmin) = []) ∧
    (∀ (n : ℕ) (peaks valleys : List ℕ) (i : ℕ),
      (buildSignal n peaks valleys).get? i =
        if i < n then some (if i ∈ valleys then 0 else if i ∈ peaks then 2 else 1)
        else none) := by
  constructor
  · intro closes dist pmin
    rw [List.eq_nil_iff_forall_not_mem]
    intro j hj
    rw [List.mem_inter_iff] at hj
    exact fp_disjoint closes dist pmin j hj.1 hj.2
  · intro n peaks valleys i
    simp only [buildSignal, List.get?_map]
    by_cases h : i < n
    · rw [List.get?_range h]
      simp [h]
    · have hnone : (List.range n).get? i = none :=
        List.get?_eq_none.mpr (by simp only [List.length_range]; omega)
      rw [hnone, if_neg h]
      rfl

/-- C9: on the flat-spike-flat window `[1, 1, 1, 2, 1, 1]` with `min_distance = 1` and
`min_prominence = 0.1`, the detector classifies index 3 as Sell (2) and classifies no
index as Buy (0). -/
theorem C9_theorem :
    find_peaks_and_valleysExc ⟨true, true, [1, 1, 1, 2, 1, 1]⟩ 1 (1/10) false =
      Except.ok [1, 1, 1, 2, 1, 1] ∧
    ([1, 1, 1, 2, 1, 1] : List ℚ).get? 3 = some 2 ∧
    (0 : ℚ) ∉ ([1, 1, 1, 2, 1, 1] : List ℚ) := by
  refine ⟨?_, by decide, by decide⟩
  with_unfolding_all rfl

/-- C1 counterexample: after a trade has been opened and closed, `current_trade` is
empty, so the code computes no boundary at all (`latest_trade_date = None`) even
though the most recent trade ever opened entered at time 4; consequently the candidate
set includes the bar at time 1, which the claimed boundary would exclude. -/
theorem C1_counterexample :
    latestTradeDate exLedgerClosed = none ∧
    lastTradeTimeSpec exLedgerClosed = some 4 ∧
    signalsSinceLastTrade (latestTradeDate exLedgerClosed) exDfIdx 6 ≠
      signalsSinceLastTrade (lastTradeTimeSpec exLedgerClosed) exDfIdx 6 := by
  refine ⟨rfl, rfl, ?_⟩
  decide

/-- C1 (amended): the boundary `auto_trade` uses is the entry time of the currently
open trade — none whenever no position is live, even if closed trades exist — and a
bar is a candidate exactly when it lies in the window, its time is at most
`current_time`, and it is strictly after the open trade's entry time when a position
is live. -/
theorem C1_amended (m : TradeModel) (dfIdx : List (ℕ × Bar)) (cur : ℕ) (ib : ℕ × Bar) :
    ib ∈ signalsSinceLastTrade (latestTradeDate m) dfIdx cur ↔
      ib ∈ dfIdx ∧ ib.2.time ≤ cur ∧
        ∀ t, m.current_trade = some t → t.entry_date < ib.2.time := by
  unfold signalsSinceLastTrade latestTradeDate
  cases hct : m.current_trade with
  | none =>
    simp only [Option.map_none', List.mem_filter, decide_eq_true_eq]
    constructor
    · rintro ⟨h1, h2⟩
      exact ⟨h1, h2, by intro t ht; cases ht⟩
    · rintro ⟨h1, h2, -⟩
      exact ⟨h1, h2⟩
  | some t =>
    simp only [Option.map_some', List.mem_filter, decide_eq_true_eq]
    constructor
    · rintro ⟨h1, h2, h3⟩
      refine ⟨h1, h3, ?_⟩
      intro t' ht'
      cases ht'
      exact h2
    · rintro ⟨h1, h2, h3⟩
      exact ⟨h1, h3 t rfl, h2⟩

/-- C4: a successful close appends to the ledger exactly the closed copy of the live
row, whose recorded profit is `exit - entry` for a Long (type `buy`) and
`entry - exit` for a Short (type `sell`). -/
theorem C4_theorem (m : TradeModel) (t : TradeRow) (d : ℕ) (p : ℚ)
    (hct : m.current_trade = some t) (hopen : t.status = "open")
    (hd : m.current_date = some d) (hp : get_close_price m d = some p) :
    (close_trade m).trades = m.trades ++ [closedRow t d p] ∧
    (t.ttype = "buy" → (closedRow t d p).profit = some (p - t.entry_price)) ∧
    (t.ttype = "sell" → (closedRow t d p).profit = some (t.entry_price - p)) := by
  refine ⟨?_, ?_, ?_⟩
  · rw [close_trade_success m t d p hct hopen hd hp]
  · intro h
    simp [closedRow, h]
  · intro h
    rw [closedRow]
    simp only [h]
    rw [if_neg (by decide)]

/-- C4 witness: the Long of the worked example, entered at 1.25 and closed at 1.2550,
is appended to the ledger with profit 0.0050. -/
theorem C4_witness :
    (close_trade exPnlLong).trades =
      exPnlLong.trades ++ [closedRow ⟨"buy", 0, 5/4, "open", none, none, none⟩ 1 (251/200)] ∧
    (closedRow ⟨"buy", 0, 5/4, "open", none, none, none⟩ 1 (251/200)).profit =
      some (1/200) :=
  ⟨(C4_theorem exPnlLong ⟨"buy", 0, 5/4, "open", none, none, none⟩ 1 (251/200)
      rfl rfl rfl rfl).1,
   by with_unfolding_all decide⟩

/-- C6: no operation ever shortens the ledger; closing with no live position returns
the model unchanged, and a repeated close is always a no-op the second time. -/
theorem C6_theorem (m : TradeModel) (df : List Bar) (f pd : ℕ) (pp : ℚ) :
    (m.trades.length ≤ (buy_trade m).trades.length ∧
     m.trades.length ≤ (sell_trade m).trades.length ∧
     m.trades.length ≤ (close_trade m).trades.length ∧
     m.trades.length ≤ (auto_trade m df f pd pp).1.trades.length) ∧
    (m.current_trade = none → close_trade m = m) ∧
    close_trade (close_trade m) = close_trade m := by
  refine ⟨⟨trades_len_buy m, trades_len_sell m, trades_len_close m, ?_⟩,
    close_trade_none m, ?_⟩
  · rcases auto_trade_model_cases m df f pd pp with h | h | h | h | h | h <;> rw [h]
    · exact le_refl _
    · exact trades_len_close (set_data m df)
    · exact trades_len_buy (set_data m df)
    · exact trades_len_sell (set_data m df)
    · exact le_trans (trades_len_close (set_data m df))
        (trades_len_buy (close_trade (set_data m df)))
    · exact le_trans (trades_len_close (set_data m df))
        (trades_len_sell (close_trade (set_data m df)))
  · rcases close_trade_eq_or_none m with h | h
    · simp only [h]
    · exact close_trade_none _ h

/-- C6 witness: closing the freshly initialised model is a no-op, and a double close
from the open-Long state equals a single close. -/
theorem C6_witness :
    close_trade exInitModel = exInitModel ∧
    close_trade (close_trade exOpenLong) = close_trade exOpenLong :=
  ⟨(C6_theorem exInitModel [] 100 5 (1/10)).2.1 rfl,
   (C6_theorem exOpenLong [] 100 5 (1/10)).2.2⟩

theorem openPositions_le_one (m : TradeModel) (h : ledgerAllClosed m) :
    openPositions m ≤ 1 := by
  unfold openPositions
  have hcount : m.trades.countP (fun t => t.status == "open") = 0 := by
    rw [List.countP_eq_zero]
    intro t ht
    simp only [h t ht]
    decide
  rw [hcount]
  split
  · split <;> omega
  · omega

theorem ledgerAllClosed_auto (m : TradeModel) (df : List Bar) (f pd : ℕ) (pp : ℚ)
    (h : ledgerAllClosed m) : ledgerAllClosed (auto_trade m df f pd pp).1 := by
  have h0 : ledgerAllClosed (set_data m df) := h
  rcases auto_trade_model_cases m df f pd pp with hc | hc | hc | hc | hc | hc <;> rw [hc]
  · exact h0
  · exact ledgerAllClosed_close _ h0
  · exact ledgerAllClosed_buy _ h0
  · exact ledgerAllClosed_sell _ h0
  · exact ledgerAllClosed_buy _ (ledgerAllClosed_close _ h0)
  · exact ledgerAllClosed_sell _ (ledgerAllClosed_close _ h0)

/-- C5: from any state whose ledger rows are all closed, each operation — open long,
open short, close, auto-trade — keeps every ledger row closed and leaves at most one
open position; and opening over a live position first appends its closed copy to the
ledger before installing the single new live row (open is never additive). -/
theorem C5_theorem (m : TradeModel) (df : List Bar) (f pd : ℕ) (pp : ℚ)
    (h : ledgerAllClosed m) :
    (ledgerAllClosed (buy_trade m) ∧ openPositions (buy_trade m) ≤ 1) ∧
    (ledgerAllClosed (sell_trade m) ∧ openPositions (sell_trade m) ≤ 1) ∧
    (ledgerAllClosed (close_trade m) ∧ openPositions (close_trade m) ≤ 1) ∧
    (ledgerAllClosed (auto_trade m df f pd pp).1 ∧
      openPositions (auto_trade m df f pd pp).1 ≤ 1) ∧
    (∀ ct d p, m.current_trade = some ct → ct.status = "open" →
      m.current_date = some d → get_close_price m d = some p →
      buy_trade m = { m with
        trades := m.trades ++ [closedRow ct d p]
        current_trade := some (openRow "buy" d p) }) := by
  refine ⟨⟨ledgerAllClosed_buy m h, openPositions_le_one _ (ledgerAllClosed_buy m h)⟩,
    ⟨ledgerAllClosed_sell m h, openPositions_le_one _ (ledgerAllClosed_sell m h)⟩,
    ⟨ledgerAllClosed_close m h, openPositions_le_one _ (ledgerAllClosed_close m h)⟩,
    ⟨ledgerAllClosed_auto m df f pd pp h, openPositions_le_one _
      (ledgerAllClosed_auto m df f pd pp h)⟩, ?_⟩
  intro ct d p hct hopen hd hp
  have hclose := close_trade_success m ct d p hct hopen hd hp
  simp only [buy_trade, hct, Option.isSome_some, if_true, hclose]
  simp only [hd]
  rw [get_close_price_data m
    ({ m with
        trades := m.trades ++ [closedRow ct d p]
        current_trade := none
        current_date := some d }) rfl d]
  rw [hp]
  simp only [openRow]

/-- C5 witness: from the open-Long state with data loaded, opening a new Long first
closes the live position into the ledger and installs exactly one new live row. -/
theorem C5_witness :
    ledgerAllClosed exPnlLong ∧
    openPositions (buy_trade exPnlLong) ≤ 1 ∧
    buy_trade exPnlLong = { exPnlLong with
      trades := exPnlLong.trades ++
        [closedRow ⟨"buy", 0, 5/4, "open", none, none, none⟩ 1 (251/200)]
      current_trade := some (openRow "buy" 1 (251/200)) } :=
  ⟨by unfold ledgerAllClosed exPnlLong; decide,
   (C5_theorem exPnlLong [] 100 5 (1/10) (by unfold ledgerAllClosed exPnlLong; decide)).1.2,
   (C5_theorem exPnlLong [] 100 5 (1/10) (by unfold ledgerAllClosed exPnlLong; decide)).2.2.2.2
     ⟨"buy", 0, 5/4, "open", none, none, none⟩ 1 (251/200) rfl rfl rfl rfl⟩

theorem auto_trade_data (m : TradeModel) (df : List Bar) (f pd : ℕ) (pp : ℚ) :
    (auto_trade m df f pd pp).1.data = some df := by
  rcases auto_trade_model_cases m df f pd pp with hc | hc | hc | hc | hc | hc <;> rw [hc]
  · rfl
  · rw [close_trade_data]; rfl
  · rw [buy_trade_data]; rfl
  · rw [sell_trade_data]; rfl
  · rw [buy_trade_data, close_trade_data]; rfl
  · rw [sell_trade_data, close_trade_data]; rfl

theorem auto_trade_df (m : TradeModel) (df : List Bar) (f pd : ℕ) (pp : ℚ) (lb : Bar)
    (hlb : df.getLast? = some lb) (hpd : pd ≠ 0) :
    (auto_trade m df f pd pp).2 = dfWithSignal df pd pp := by
  simp only [auto_trade, hlb]
  rw [if_neg hpd]
  split
  · rfl
  · split
    · rfl
    · split
      · split
        · rfl
        · split
          · rfl
          · split
            · rfl
            · rfl
      · split
        · rfl
        · split
          · rfl
          · rfl

/-- C10: on a non-empty window (with a valid peak distance), `auto_trade` hands back
the caller's DataFrame with exactly one cell changed — the Signal of the last row now
holds the freshly detected signal — every other row and cell untouched, and stores in
`model.data` a copy of the window as it was passed in (taken before the signal
write). The embedded detector is a pure function of its input, so it cannot alter the
window it reads. -/
theorem C10_theorem (m : TradeModel) (df : List Bar) (f pd : ℕ) (pp : ℚ) (lb : Bar)
    (hlb : df.getLast? = some lb) (hpd : pd ≠ 0) :
    (auto_trade m df f pd pp).2 =
      df.dropLast ++ [{ lb with signal := some (currentSignalOf df pd pp) }] ∧
    (auto_trade m df f pd pp).1.data = some df := by
  constructor
  · rw [auto_trade_df m df f pd pp lb hlb hpd]
    unfold dfWithSignal
    rw [hlb]
  · exact auto_trade_data m df f pd pp

/-- C10 witness: on the six-bar window the call writes signal 1 (the detector output
at the last index) into the last row only, and stores the original window. -/
theorem C10_witness :
    (auto_trade exOpenLong exBars 100 1 (1/10)).2 =
      exBars.dropLast ++
        [{ (⟨6, 1, some 1, []⟩ : Bar) with
            signal := some (currentSignalOf exBars 1 (1/10)) }] ∧
    (auto_trade exOpenLong exBars 100 1 (1/10)).1.data = some exBars :=
  C10_theorem exOpenLong exBars 100 1 (1/10) ⟨6, 1, some 1, []⟩ rfl (by decide)

theorem auto_trade_decision (m : TradeModel) (df : List Bar) (f pd : ℕ) (pp : ℚ)
    (lb : Bar) (ib : ℕ × Bar)
    (hlb : df.getLast? = some lb) (hpd : pd ≠ 0)
    (hvalid : (autoCandidates (set_data m df) df pd pp lb.time).getLast? = some ib) :
    (auto_trade m df f pd pp).1 =
      if ib.2.signal.getD 1 = 1 then set_data m df
      else
        match (set_data m df).current_trade with
        | some ct =>
          if (ib.2.signal.getD 1 = 0 ∧ ct.ttype = "buy") ∨
             (ib.2.signal.getD 1 = 2 ∧ ct.ttype = "sell") then set_data m df
          else
            if ib.2.signal.getD 1 = 0 ∧
                ((dfWithSignal df pd pp).length : ℤ) - 1 - (ib.1 : ℤ) ≤ (f : ℤ) then
              buy_trade (close_trade (set_data m df))
            else if ib.2.signal.getD 1 = 2 ∧
                ((dfWithSignal df pd pp).length : ℤ) - 1 - (ib.1 : ℤ) ≤ (f : ℤ) then
              sell_trade (close_trade (set_data m df))
            else close_trade (set_data m df)
        | none =>
          if ib.2.signal.getD 1 = 0 ∧
              ((dfWithSignal df pd pp).length : ℤ) - 1 - (ib.1 : ℤ) ≤ (f : ℤ) then
            buy_trade (set_data m df)
          else if ib.2.signal.getD 1 = 2 ∧
              ((dfWithSignal df pd pp).length : ℤ) - 1 - (ib.1 : ℤ) ≤ (f : ℤ) then
            sell_trade (set_data m df)
          else set_data m df := by
  simp only [auto_trade, hlb]
  rw [if_neg hpd]
  simp only [hvalid]
  split
  · rfl
  · split
    · split
      · rfl
      · split
        · rfl
        · split
          · rfl
          · rfl
    · split
      · rfl
      · split
        · rfl
        · rfl

/-- C2 counterexample: open Long, stale Sell candidate (index difference 2 with
`furthest_index = 0`): `auto_trade` is not actionless — it closes the Long, so the
ledger grows by one row and the live position is cleared. -/
theorem C2_counterexample :
    exOpenLong.trades.length = 0 ∧
    (auto_trade exOpenLong exBars 0 1 (1/10)).1.trades.length = 1 ∧
    (auto_trade exOpenLong exBars 0 1 (1/10)).1.current_trade = none := by
  refine ⟨rfl, ?_, ?_⟩ <;> with_unfolding_all decide

/-- C2 (amended): when the most recent Buy/Sell candidate is stale
(`index_difference > furthest_index`), `auto_trade` never opens a position; with no
live position, or with a live position whose side agrees with the signal, the model is
left unchanged apart from `model.data`; but with a live position of the opposite side
the engine still performs the close (so the ledger can grow) — only the re-open is
suppressed by the recency gate. -/
theorem C2_theorem (m : TradeModel) (df : List Bar) (f pd : ℕ) (pp : ℚ)
    (lb : Bar) (ib : ℕ × Bar)
    (hlb : df.getLast? = some lb) (hpd : pd ≠ 0)
    (hvalid : (autoCandidates (set_data m df) df pd pp lb.time).getLast? = some ib)
    (hstale : ¬(((dfWithSignal df pd pp).length : ℤ) - 1 - (ib.1 : ℤ) ≤ (f : ℤ))) :
    ((auto_trade m df f pd pp).1.current_trade = m.current_trade ∨
      (auto_trade m df f pd pp).1.current_trade = none) ∧
    (m.current_trade = none → (auto_trade m df f pd pp).1 = set_data m df) ∧
    (∀ ct, m.current_trade = some ct →
      ((ib.2.signal.getD 1 = 0 ∧ ct.ttype = "buy") ∨
          (ib.2.signal.getD 1 = 2 ∧ ct.ttype = "sell") →
        (auto_trade m df f pd pp).1 = set_data m df) ∧
      (¬((ib.2.signal.getD 1 = 0 ∧ ct.ttype = "buy") ∨
          (ib.2.signal.getD 1 = 2 ∧ ct.ttype = "sell")) →
        (auto_trade m df f pd pp).1 = close_trade (set_data m df))) := by
  have hmem : ib ∈ autoCandidates (set_data m df) df pd pp lb.time :=
    mem_of_getLast?_eq hvalid
  unfold autoCandidates at hmem
  have hsig := validSignalsOf_mem _ ib hmem
  have hs1 : ib.2.signal.getD 1 ≠ 1 := by
    rcases hsig with h | h <;> rw [h] <;> norm_num
  rw [auto_trade_decision m df f pd pp lb ib hlb hpd hvalid, if_neg hs1]
  rw [show (set_data m df).current_trade = m.current_trade from rfl]
  cases hct : m.current_trade with
  | none =>
    dsimp only
    rw [if_neg (fun hc => hstale hc.2), if_neg (fun hc => hstale hc.2)]
    refine ⟨Or.inl hct, fun _ => rfl, ?_⟩
    intro ct hcontra
    exact Option.noConfusion hcontra
  | some ct' =>
    dsimp only
    refine ⟨?_, ?_, ?_⟩
    · by_cases hagree : (ib.2.signal.getD 1 = 0 ∧ ct'.ttype = "buy") ∨
          (ib.2.signal.getD 1 = 2 ∧ ct'.ttype = "sell")
      · rw [if_pos hagree]
        exact Or.inl hct
      · rw [if_neg hagree, if_neg (fun hc => hstale hc.2), if_neg (fun hc => hstale hc.2)]
        rcases close_trade_eq_or_none (set_data m df) with hc | hc
        · rw [hc]
          exact Or.inl hct
        · exact Or.inr hc
    · intro hnone
      exact absurd hnone (by simp)
    · intro ct hcteq
      have hcc : ct' = ct := Option.some.inj hcteq
      subst hcc
      constructor
      · intro hagree
        rw [if_pos hagree]
      · intro hnot
        rw [if_neg hnot, if_neg (fun hc => hstale hc.2), if_neg (fun hc => hstale hc.2)]

/-- C2 witness: in the stale-Sell scenario the amended statement yields exactly the
close of the live Long with no re-open. -/
theorem C2_witness :
    (auto_trade exOpenLong exBars 0 1 (1/10)).1 =
      close_trade (set_data exOpenLong exBars) :=
  ((C2_theorem exOpenLong exBars 0 1 (1/10) ⟨6, 1, some 1, []⟩ (3, ⟨4, 2, some 2, []⟩)
      rfl (by decide) (by with_unfolding_all decide) (by with_unfolding_all decide)).2.2
    ⟨"buy", 0, 2, "open", none, none, none⟩ rfl).2 (by with_unfolding_all decide)

/-- C7: with a Long open, a recent Sell as the most recent valid candidate, and the
close price of the current bar available at the engine clock (the bar at
`current_time` is the window's last bar, uniquely matched by its time), `auto_trade`
closes the Long — the ledger gains exactly its closed copy, with profit
`exit - entry` — and then opens a Short at the close price of that current bar. -/
theorem C7_theorem (m : TradeModel) (df : List Bar) (f pd : ℕ) (pp : ℚ)
    (lb : Bar) (ib : ℕ × Bar) (ct : TradeRow) (d : ℕ)
    (hct : m.current_trade = some ct) (httype : ct.ttype = "buy")
    (hopen : ct.status = "open") (hd : m.current_date = some d)
    (hlb : df.getLast? = some lb) (hpd : pd ≠ 0)
    (hfind : df.find? (fun b => b.time == d) = some lb)
    (hvalid : (autoCandidates (set_data m df) df pd pp lb.time).getLast? = some ib)
    (hsig : ib.2.signal = some 2)
    (hrecent : ((dfWithSignal df pd pp).length : ℤ) - 1 - (ib.1 : ℤ) ≤ (f : ℤ)) :
    (auto_trade m df f pd pp).1.trades = m.trades ++ [closedRow ct d lb.close] ∧
    (closedRow ct d lb.close).profit = some (lb.close - ct.entry_price) ∧
    (auto_trade m df f pd pp).1.current_trade = some (openRow "sell" d lb.close) := by
  have hs : ib.2.signal.getD 1 = 2 := by rw [hsig]; rfl
  have hp : get_close_price (set_data m df) d = some lb.close := by
    unfold get_close_price set_data
    dsimp only
    rw [hfind]
    rfl
  have hcs : close_trade (set_data m df) =
      { set_data m df with
        trades := (set_data m df).trades ++ [closedRow ct d lb.close]
        current_trade := none } :=
    close_trade_success (set_data m df) ct d lb.close hct hopen hd hp
  rw [auto_trade_decision m df f pd pp lb ib hlb hpd hvalid, hs]
  rw [if_neg (by norm_num : ¬(2 : ℚ) = 1)]
  rw [show (set_data m df).current_trade = m.current_trade from rfl, hct]
  dsimp only
  rw [if_neg (fun hc => absurd (httype ▸ hc.elim (fun h => absurd h.1 (by norm_num))
    (fun h => h.2)) (by decide))]
  rw [if_neg (fun hc => absurd hc.1 (by norm_num))]
  rw [if_pos ⟨rfl, hrecent⟩]
  rw [hcs]
  dsimp only
  rw [sell_trade_open
    { trades := (set_data m df).trades ++ [closedRow ct d lb.close]
      current_trade := none
      current_date := (set_data m df).current_date
      data := (set_data m df).data } d lb.close rfl hd hp]
  refine ⟨rfl, ?_, rfl⟩
  rw [closedRow]
  simp only [httype, if_pos]

/-- C7 witness: the open Long entered at price 1 is flipped by the recent Sell at
index 3 — the ledger gains its closed copy with profit `1 - 1 = 0` and a Short is
opened at the current bar close 1. -/
theorem C7_witness :
    (auto_trade exFlipLong exBars 100 1 (1/10)).1.trades =
      exFlipLong.trades ++ [closedRow ⟨"buy", 0, 1, "open", none, none, none⟩ 6 1] ∧
    (auto_trade exFlipLong exBars 100 1 (1/10)).1.current_trade =
      some (openRow "sell" 6 1) :=
  ⟨(C7_theorem exFlipLong exBars 100 1 (1/10) ⟨6, 1, some 1, []⟩ (3, ⟨4, 2, some 2, []⟩)
      ⟨"buy", 0, 1, "open", none, none, none⟩ 6 rfl rfl rfl rfl rfl (by decide) rfl
      (by with_unfolding_all decide) rfl (by with_unfolding_all decide)).1,
   (C7_theorem exFlipLong exBars 100 1 (1/10) ⟨6, 1, some 1, []⟩ (3, ⟨4, 2, some 2, []⟩)
      ⟨"buy", 0, 1, "open", none, none, none⟩ 6 rfl rfl rfl rfl rfl (by decide) rfl
      (by with_unfolding_all decide) rfl (by with_unfolding_all decide)).2.2⟩
